import Mathlib

/-!
Verification development for the Resume-Skills-Extractor backend
(candidate-job matching pipeline).

The Python sources under `backend/` are shallowly embedded as executable
Lean definitions:

* `rag_utils.py`   — `TextChunker.chunk_text` (sentence-level loop),
                     `RAGProcessor.evaluate_with_llm` (fallback behaviour);
* `evaluation.py`  — `SkillNormalizer.normalize` / `normalize_list`,
                     `ScoreCalculator.calculate_skills_score`,
                     `RoleLevelInferrer.infer_role_level`,
                     the descending stable sort of `evaluate_candidates`;
* `config.py`      — `Settings.SKILL_SYNONYMS` and the scoring constants;
* `main.py`        — the evaluation-cache keys and the cache-invalidation
                     steps of `update_job` / `upload_resume`;
* `schemas.py`     — the `min_experience_years` schema default.

Python `str` values in this pipeline are ASCII, so `str.lower` is modelled
by `Char.toLower` (which lowers exactly the ASCII range) and `str.strip`
by removal of the six ASCII whitespace characters.  Python floats appear
only through exact decimal constants and divisions; scores are modelled
as rationals (`ℚ`).  Python `dict`/`set` values are modelled by
association lists / deduplicated lists, with order treated as
insignificant exactly where CPython leaves it unspecified.
-/

namespace ATS

/-! ### Python text primitives -/

/-- Whitespace test used by `str.strip` (ASCII fragment: space, tab,
newline, carriage return, vertical tab, form feed). -/
def isPySpace (c : Char) : Bool :=
  c.toNat = 32 || c.toNat = 9 || c.toNat = 10 || c.toNat = 13 ||
  c.toNat = 11 || c.toNat = 12

/-- Python `str.lower()` on ASCII text: lower each character. -/
def pyLower (s : String) : String := ⟨s.data.map Char.toLower⟩

/-- Strip leading and trailing whitespace from a character list. -/
def trimChars (l : List Char) : List Char :=
  ((l.dropWhile isPySpace).reverse.dropWhile isPySpace).reverse

/-- Python `str.strip()` (no arguments): remove surrounding whitespace. -/
def pyStrip (s : String) : String := ⟨trimChars s.data⟩

/-- Character-list version of Python `str.startswith`. -/
def startsWithChars : List Char → List Char → Bool
  | [], _ => true
  | _ :: _, [] => false
  | a :: as, b :: bs => a == b && startsWithChars as bs

/-- Python `pre in s` would be `occursIn pre s`; substring occurrence. -/
def occursInChars : List Char → List Char → Bool
  | n, [] => n.isEmpty
  | n, c :: t => startsWithChars n (c :: t) || occursInChars n t

/-- Python `str.startswith` on strings. -/
def pyStartswith (pre s : String) : Bool := startsWithChars pre.data s.data

/-- Python substring containment `needle in hay`. -/
def occursIn (needle hay : String) : Bool := occursInChars needle.data hay.data

/-- Python built-in `max(a, b)`: the second argument wins only when
strictly larger. -/
def pyMax (a b : ℚ) : ℚ := if a < b then b else a

/-- Python built-in `min(a, b)`: the second argument wins only when
strictly smaller. -/
def pyMin (a b : ℚ) : ℚ := if b < a then b else a

/-! ### `config.py` — `Settings.SKILL_SYNONYMS` (lines 51–126) -/

/-- Synonym table from `config.py`, in source order.  The Python dict has
pairwise-distinct keys (checked in `SKILL_SYNONYMS_keys_nodup` below), so
first-match association-list lookup agrees with dict lookup. -/
def SKILL_SYNONYMS : List (String × String) := [
  ("js", "JavaScript"),
  ("javascript", "JavaScript"),
  ("ts", "TypeScript"),
  ("typescript", "TypeScript"),
  ("py", "Python"),
  ("python", "Python"),
  ("react.js", "React"),
  ("reactjs", "React"),
  ("react", "React"),
  ("node.js", "Node.js"),
  ("nodejs", "Node.js"),
  ("node", "Node.js"),
  ("postgres", "PostgreSQL"),
  ("postgresql", "PostgreSQL"),
  ("mongo", "MongoDB"),
  ("mongodb", "MongoDB"),
  ("aws", "AWS"),
  ("amazon web services", "AWS"),
  ("gcp", "Google Cloud Platform"),
  ("google cloud", "Google Cloud Platform"),
  ("k8s", "Kubernetes"),
  ("kubernetes", "Kubernetes"),
  ("docker", "Docker"),
  ("ml", "Machine Learning"),
  ("machine learning", "Machine Learning"),
  ("ai", "Artificial Intelligence"),
  ("artificial intelligence", "Artificial Intelligence"),
  ("dl", "Deep Learning"),
  ("deep learning", "Deep Learning"),
  ("sql", "SQL"),
  ("mysql", "MySQL"),
  ("c#", "C#"),
  ("csharp", "C#"),
  ("c++", "C++"),
  ("cpp", "C++"),
  ("golang", "Go"),
  ("go", "Go"),
  ("tf", "TensorFlow"),
  ("tensorflow", "TensorFlow"),
  ("pytorch", "PyTorch"),
  ("vue.js", "Vue.js"),
  ("vuejs", "Vue.js"),
  ("vue", "Vue.js"),
  ("angular.js", "Angular"),
  ("angularjs", "Angular"),
  ("angular", "Angular"),
  ("java", "Java"),
  ("spring", "Spring Framework"),
  ("spring boot", "Spring Boot"),
  ("springboot", "Spring Boot"),
  ("fastapi", "FastAPI"),
  ("flask", "Flask"),
  ("django", "Django"),
  ("express", "Express.js"),
  ("expressjs", "Express.js"),
  ("express.js", "Express.js"),
  ("graphql", "GraphQL"),
  ("rest", "REST API"),
  ("restful", "REST API"),
  ("rest api", "REST API"),
  ("ci/cd", "CI/CD"),
  ("cicd", "CI/CD"),
  ("git", "Git"),
  ("github", "GitHub"),
  ("gitlab", "GitLab"),
  ("jenkins", "Jenkins"),
  ("terraform", "Terraform"),
  ("ansible", "Ansible"),
  ("linux", "Linux"),
  ("unix", "Unix"),
  ("bash", "Bash"),
  ("shell", "Shell Scripting"),
  ("agile", "Agile"),
  ("scrum", "Scrum")]

/-! ### `evaluation.py` — `SkillNormalizer` (lines 77–93) -/

/-- Constructor of `SkillNormalizer`: keys lowered once more
(`{k.lower(): v for k, v in settings.SKILL_SYNONYMS.items()}`). -/
def synonyms : List (String × String) :=
  SKILL_SYNONYMS.map (fun p => (pyLower p.1, p.2))

/-- Dict lookup `self.synonyms.get(key)` (keys are pairwise distinct). -/
def lookupSyn (key : String) : Option String :=
  (synonyms.find? (fun p => p.1 == key)).map (fun p => p.2)

/-- Embeds `SkillNormalizer.normalize`:
`skill_lower = skill.lower().strip(); return self.synonyms.get(skill_lower, skill.strip())`. -/
def normalize (skill : String) : String :=
  match lookupSyn (pyStrip (pyLower skill)) with
  | some v => v
  | none => pyStrip skill

/-- Embeds `SkillNormalizer.normalize_list`: a Python `set` of the
normalized values, returned as a list.  `List.dedup` models the set
(one representative per distinct normalized string; CPython leaves the
order of `list(set(...))` unspecified and the spec treats it as
insignificant). -/
def normalize_list (skills : List String) : List String :=
  (skills.map normalize).dedup

/-! ### `evaluation.py` — `ScoreCalculator.calculate_skills_score`
(lines 123–166) -/

/-- Embeds `ScoreCalculator.calculate_skills_score`.  The Python sets
`matched_normalized` / `mandatory_normalized` / `optional_normalized`
are modelled by deduplicated lists; `len(A.intersection(B))` is the
length of the filter of the deduplicated `A` by membership in `B`. -/
def calculate_skills_score (matched_skills missing_skills mandatory_skills
    optional_skills : List String) : ℚ :=
  if mandatory_skills = [] ∧ optional_skills = [] then 50
  else
    let total_mandatory : ℕ := mandatory_skills.length
    let total_optional : ℕ := optional_skills.length
    let matched_normalized := (matched_skills.map normalize).dedup
    let mandatory_normalized := (mandatory_skills.map normalize).dedup
    let optional_normalized := (optional_skills.map normalize).dedup
    let mandatory_matched :=
      (matched_normalized.filter (fun s => mandatory_normalized.contains s)).length
    let optional_matched :=
      (matched_normalized.filter (fun s => optional_normalized.contains s)).length
    let mandatory_score : ℚ :=
      if total_mandatory > 0 then ((mandatory_matched : ℚ) / total_mandatory) * 70
      else 70
    let optional_score : ℚ :=
      if total_optional > 0 then ((optional_matched : ℚ) / total_optional) * 30
      else 30
    let missing_mandatory : ℚ := (total_mandatory : ℚ) - (mandatory_matched : ℚ)
    let penalty : ℚ := missing_mandatory * 10
    pyMin 100 (pyMax 0 ((mandatory_score + optional_score) - penalty))

/-- Arithmetic core of `calculate_skills_score` as a function of the four
counts (mandatory matched / mandatory total / optional matched / optional
total), used to state monotonicity in the mandatory-matched count. -/
def countsScore (m M o O : ℕ) : ℚ :=
  pyMin 100 (pyMax 0
    (((if M > 0 then ((m : ℚ) / M) * 70 else 70) +
      (if O > 0 then ((o : ℚ) / O) * 30 else 30)) -
     ((M : ℚ) - (m : ℚ)) * 10))

theorem SKILL_SYNONYMS_keys_nodup : (SKILL_SYNONYMS.map Prod.fst).Nodup := by
  decide

/-! ### `schemas.py` / `evaluation.py` — `RoleLevelInferrer` (lines 17–74) -/

/-- Role levels of `schemas.RoleLevel`, in the declaration order of
`RoleLevelInferrer.LEVEL_INDICATORS` (Python dicts iterate in insertion
order). -/
inductive RoleLevel
  | intern
  | junior
  | mid
  | senior
  | lead
deriving DecidableEq

/-- Keyword lists of `LEVEL_INDICATORS[level]["keywords"]`. -/
def levelKeywords : RoleLevel → List String
  | .intern => ["intern", "internship", "trainee", "student", "entry-level"]
  | .junior => ["junior", "associate", "graduate", "entry level", "0-2 years",
                "1-2 years", "fresher"]
  | .mid => ["mid-level", "mid level", "intermediate", "3-5 years", "2-4 years",
             "3+ years"]
  | .senior => ["senior", "sr.", "experienced", "5+ years", "5-8 years",
                "7+ years", "expert"]
  | .lead => ["lead", "principal", "staff", "architect", "manager", "head",
              "director", "10+ years"]

/-- Inclusive ranges `LEVEL_INDICATORS[level]["experience_years"]`. -/
def levelExpRange : RoleLevel → Int × Int
  | .intern => (0, 1)
  | .junior => (0, 2)
  | .mid => (2, 5)
  | .senior => (5, 10)
  | .lead => (8, 20)

/-- Iteration order of the `LEVEL_INDICATORS` dict. -/
def levelOrder : List RoleLevel :=
  [.intern, .junior, .mid, .senior, .lead]

/-- Score accumulated for one level inside `infer_role_level`:
`+2` per keyword contained in the lowered JD text, `+3` if
`min_experience_years` (when not `None`) lies in the level's inclusive
range. -/
def levelScore (jd_text : String) (min_experience_years : Option Int)
    (l : RoleLevel) : ℕ :=
  2 * (levelKeywords l).countP (fun kw => occursIn kw jd_text) +
  (match min_experience_years with
   | none => 0
   | some n =>
     if (levelExpRange l).1 ≤ n ∧ n ≤ (levelExpRange l).2 then 3 else 0)

/-- Embeds `RoleLevelInferrer.infer_role_level`.  `jd_text` is
`f"{jd.title} {jd.description}".lower()`.  The Python guard
`max(level_scores.values()) == 0` is stated as all scores being zero
(scores are naturals); `max(level_scores, key=level_scores.get)` keeps
the first key attaining the maximum in insertion order, modelled by the
left fold below (a later level replaces the current best only on a
strictly larger score). -/
def infer_role_level (title description : String)
    (min_experience_years : Option Int) : RoleLevel :=
  let jd_text := pyLower (title ++ " " ++ description)
  let score := fun l => levelScore jd_text min_experience_years l
  if levelOrder.all (fun l => score l == 0) then .mid
  else [RoleLevel.junior, .mid, .senior, .lead].foldl
    (fun best l => if score l > score best then l else best) RoleLevel.intern

/-- Schema default of `JobDescriptionInput.min_experience_years`
(`schemas.py` line 36): `Field(default=0)`, so a request that omits the
field materialises the value `0`, not `None`. -/
def min_experience_years_default : Option Int := some 0

/-! ### `main.py` — evaluation-cache keys and invalidation -/

/-- Insertion sort by the ASCII/codepoint order, modelling Python
`sorted` on strings (stable; strings compare lexicographically by code
point in both languages). -/
def insertStr (x : String) : List String → List String
  | [] => [x]
  | y :: ys => if x ≤ y then x :: y :: ys else y :: insertStr x ys

/-- Python `sorted(candidate_ids)`. -/
def sortedStrings (l : List String) : List String := l.foldr insertStr []

/-- Cache key built in `evaluate_candidates` (`main.py` line 873):
`f"{job_id}_all" if not request.candidate_ids else
f"{job_id}_{'_'.join(sorted(request.candidate_ids))}"` (an empty list is
falsy in Python, hence the `some []` case). -/
def eval_cache_key (job_id : String) (candidate_ids : Option (List String)) :
    String :=
  match candidate_ids with
  | none => job_id ++ "_all"
  | some [] => job_id ++ "_all"
  | some ids => job_id ++ "_" ++ String.intercalate "_" (sortedStrings ids)

/-- Key-set effect of the cache invalidation in `update_job`
(`main.py` lines 236–239): delete every key with
`key.startswith(f"{job_id}_")`. -/
def update_job_invalidate (job_id : String) (cache_keys : List String) :
    List String :=
  cache_keys.filter (fun key => !(pyStartswith (job_id ++ "_") key))

/-- Key-set effect of the cache invalidation in `upload_resume`
(`main.py` lines 322–324): `if job_id in app_state.evaluation_cache:
del app_state.evaluation_cache[job_id]` — it deletes only the key equal
to the bare `job_id`. -/
def upload_resume_invalidate (job_id : String) (cache_keys : List String) :
    List String :=
  cache_keys.filter (fun key => !(key == job_id))

/-! ### `rag_utils.py` — `TextChunker` (lines 16–82) -/

/-- `TextChunker.estimate_tokens`: `len(text) // 4`. -/
def estimate_tokens (text : String) : ℕ := text.length / 4

/-- Backward walk of `chunk_text` that seeds the next chunk: iterate over
`reversed(current_chunk)`, keep a sentence while the accumulated estimate
stays within the overlap budget, `break` at the first overflow
(`overlap_size` is the accumulator). -/
def overlapTake (overlap : ℕ) : ℕ → List String → List String
  | _, [] => []
  | overlap_size, s :: rest =>
    if overlap_size + estimate_tokens s ≤ overlap then
      s :: overlapTake overlap (overlap_size + estimate_tokens s) rest
    else []

/-- Sentences kept as overlap when a chunk closes (`overlap_sentences`
in the source, built back-to-front with `insert(0, s)`). -/
def overlapSeed (overlap : ℕ) (chunk : List String) : List String :=
  (overlapTake overlap 0 chunk.reverse).reverse

/-- Main loop of `TextChunker.chunk_text` at the sentence level, after
`_clean_text` / `_split_into_sentences`.  State: remaining sentences,
`current_chunk`, `current_size`, chunks emitted so far.  Emitted chunks
are kept as sentence lists; the source joins each with a single space
when appending to `chunks`. -/
def chunkLoop (chunk_size overlap : ℕ) :
    List String → List String → ℕ → List (List String) → List (List String)
  | [], current_chunk, _, chunks =>
    if current_chunk.isEmpty then chunks else chunks ++ [current_chunk]
  | sentence :: rest, current_chunk, current_size, chunks =>
    let sentence_tokens := estimate_tokens sentence
    if current_size + sentence_tokens > chunk_size ∧ current_chunk ≠ [] then
      let seed := overlapSeed overlap current_chunk
      chunkLoop chunk_size overlap rest (seed ++ [sentence])
        ((seed.map estimate_tokens).sum + sentence_tokens)
        (chunks ++ [current_chunk])
    else
      chunkLoop chunk_size overlap rest (current_chunk ++ [sentence])
        (current_size + sentence_tokens) chunks

/-- Chunking a sentence sequence: the source's loop started from the
empty state. -/
def chunk_sentences (chunk_size overlap : ℕ) (sentences : List String) :
    List (List String) :=
  chunkLoop chunk_size overlap sentences [] 0 []

/-! ### `evaluation.py` — result ordering of `evaluate_candidates`
(lines 240–243) -/

/-- Candidate evaluation reduced to the fields the ordering step reads:
identity plus `scores.final_score`. -/
structure EvalItem where
  candidate_id : String
  final_score : ℚ
deriving DecidableEq

/-- One step of a stable descending insertion: the new element passes
every earlier element whose score is `≥` its own and lands before the
first strictly smaller one. -/
def insertDesc (x : EvalItem) : List EvalItem → List EvalItem
  | [] => [x]
  | y :: ys => if x.final_score > y.final_score then x :: y :: ys
               else y :: insertDesc x ys

/-- Model of `evaluations.sort(key=lambda x: x.scores.final_score,
reverse=True)`.  Python's sort is stable and `reverse=True` keeps equal
keys in input order; a stable descending sort is extensionally unique,
and this left fold (insert each element, in input order, after all
already-placed elements with an equal or larger key) realises it. -/
def sortEvalsDesc (l : List EvalItem) : List EvalItem :=
  l.foldl (fun acc x => insertDesc x acc) []

/-! ### `rag_utils.py` — `RAGProcessor.evaluate_with_llm`
(lines 386–477) -/

/-- Shape of the judgment dict `evaluate_with_llm` returns. -/
structure LLMEvaluation where
  matched_skills : List String
  missing_skills : List String
  skills_score : ℚ
  experience_summary : String
  experience_score : ℚ
  education_details : String
  education_score : ℚ
  strengths : List String
  weaknesses : List String
  confidence_notes : String
deriving DecidableEq

/-- Outcome of `self.groq_client.generate_completion(...)`: either the
response text or a raised transport error (`GroqClient` wraps every
failure in a `RuntimeError`). -/
inductive CompletionOutcome
  | ok (text : String)
  | transportError (msg : String)

/-- Code-fence stripping of `evaluate_with_llm`: `response.strip()`,
then, when the result starts with three backtick characters, drop the
opening fence (with its optional `json` tag and newline) and the closing
fence.  This models the source's two regex substitutions on their
intended inputs; the theorems below quantify over the parse function, so
none of them depends on this definition's fine structure. -/
def stripCodeFence (response : String) : String :=
  let fence : String := ⟨[Char.ofNat 96, Char.ofNat 96, Char.ofNat 96]⟩
  let t := pyStrip response
  if pyStartswith fence t then
    let afterOpen :=
      if pyStartswith (fence ++ "json\n") t then t.drop 8
      else if pyStartswith (fence ++ "json") t then t.drop 7
      else if pyStartswith (fence ++ "\n") t then t.drop 4
      else t.drop 3
    let d := afterOpen.data
    if startsWithChars (fence ++ "\n").data.reverse d.reverse then
      ⟨(d.reverse.drop 4).reverse⟩
    else if startsWithChars fence.data.reverse d.reverse then
      ⟨(d.reverse.drop 3).reverse⟩
    else afterOpen
  else t

/-- Embeds `RAGProcessor.evaluate_with_llm` at its failure boundary.
The completion call and `json.loads` are the two external collaborators;
the completion outcome and the JSON parse function are passed in
(`parseJSON` returns `Except` carrying the `JSONDecodeError` message).
A transport failure is caught by the generic `except Exception` branch,
a parse failure by the `except json.JSONDecodeError` branch; each
substitutes the conservative fallback dict written in the source.  The
function is total: no failure escapes this boundary. -/
def evaluate_with_llm (mandatory_skills optional_skills : List String)
    (completion : CompletionOutcome)
    (parseJSON : String → Except String LLMEvaluation) : LLMEvaluation :=
  match completion with
  | .transportError e =>
    { matched_skills := []
      missing_skills := mandatory_skills
      skills_score := 0
      experience_summary := "Evaluation error"
      experience_score := 0
      education_details := "Unknown"
      education_score := 0
      strengths := []
      weaknesses := ["Evaluation failed"]
      confidence_notes := "LLM evaluation failed: " ++ e }
  | .ok text =>
    match parseJSON (stripCodeFence text) with
    | .ok evaluation => evaluation
    | .error e =>
      { matched_skills := []
        missing_skills := mandatory_skills
        skills_score := 0
        experience_summary := "Unable to parse resume content"
        experience_score := 0
        education_details := "Unknown"
        education_score := 0
        strengths := []
        weaknesses := ["Resume parsing failed"]
        confidence_notes := "Evaluation failed due to parsing error: " ++ e }

/-- The non-default branch of `calculate_skills_score` is `countsScore`
applied to the counts derived from the normalized skill sets. -/
theorem calculate_skills_score_eq_countsScore
    (matched_skills missing_skills mandatory_skills optional_skills : List String) :
    calculate_skills_score matched_skills missing_skills mandatory_skills
        optional_skills =
      if mandatory_skills = [] ∧ optional_skills = [] then 50
      else
        countsScore
          (((matched_skills.map normalize).dedup.filter
              (fun s => (mandatory_skills.map normalize).dedup.contains s)).length)
          mandatory_skills.length
          (((matched_skills.map normalize).dedup.filter
              (fun s => (optional_skills.map normalize).dedup.contains s)).length)
          optional_skills.length := rfl

/-! ## Claim C1 -/

/-- C1: the claim says both `update_job` and `upload_resume` remove every
cached evaluation entry keyed to the job identifier.  The `update_job`
half holds (its key-scan drops every key starting with `job_id + "_"`,
which every cache key of that job does), but `upload_resume` deletes only
the bare key `job_id`, which is never a cache key: with job `"j"` and a
cached all-candidates entry under key `"j_all"`, the upload-time
invalidation leaves the cache unchanged while the update-time one clears
it. -/
theorem upload_resume_keeps_stale_cache_entry :
    eval_cache_key "j" none = "j_all" ∧
    upload_resume_invalidate "j" [eval_cache_key "j" none] =
      [eval_cache_key "j" none] ∧
    update_job_invalidate "j" [eval_cache_key "j" none] = [] := by
  decide

/-! ## Claim C2 -/

/-- C2: `calculate_skills_score` with mandatory
`["Python","FastAPI","PostgreSQL"]`, matched `["Python"]` and no optional
skills evaluates to the mandatory credit `(1/3)*70` plus the full
optional credit `30` minus the missing-mandatory penalty `2*10`, a value
(= 100/3 ≈ 33.33) already inside the clamp interval `[0, 100]`. -/
theorem calculate_skills_score_example :
    calculate_skills_score ["Python"] [] ["Python", "FastAPI", "PostgreSQL"] []
      = (1 / 3 : ℚ) * 70 + 30 - 20 ∧
    (0 : ℚ) ≤ (1 / 3 : ℚ) * 70 + 30 - 20 ∧
    (1 / 3 : ℚ) * 70 + 30 - 20 ≤ 100 := by
  refine ⟨?_, by norm_num, by norm_num⟩
  have h : calculate_skills_score ["Python"] []
      ["Python", "FastAPI", "PostgreSQL"] [] = countsScore 1 3 0 0 := rfl
  rw [h]
  simp only [countsScore, pyMin, pyMax]
  norm_num

/-! ## Claim C4 -/

/-- C4 counterexample: the claim says no two entries of a
`normalize_list` result differ only by letter case.  `"rust"` and
`"RUST"` are unknown to the synonym table, pass through with case
preserved, and both appear in the result: two entries that are equal
after lowercasing but not equal. -/
theorem normalize_list_keeps_case_variants :
    "rust" ∈ normalize_list ["rust", "RUST"] ∧
    "RUST" ∈ normalize_list ["rust", "RUST"] ∧
    "rust" ≠ "RUST" ∧
    pyLower "rust" = pyLower "RUST" := by
  decide

/-- C4 amended: `normalize_list` deduplicates by exact string equality of
the normalized values (set semantics): the result has no duplicate
entries, and its members are exactly the normalized forms of the input;
distinct unknown tokens that differ only by case pass through unmerged. -/
theorem normalize_list_dedups_exactly (skills : List String) :
    (normalize_list skills).Nodup ∧
    ∀ s, s ∈ normalize_list skills ↔ s ∈ skills.map normalize := by
  refine ⟨List.nodup_dedup _, fun s => List.mem_dedup⟩

/-! ## Claim C3 -/

/-- C3 counterexample: the claim says a job with an empty description, a
title/description containing none of the level keywords, and no
experience value supplied yields `Mid`.  But `schemas.py` gives
`min_experience_years` the default `0` (not `None`): an omitted field
materialises `0`, which lies in the Intern (0–1) and Junior (0–2)
ranges, so those two levels score `3` each and the classifier returns
the first maximum, `Intern`.  The title `"x"` and the empty description
contain no level keyword (third conjunct). -/
theorem infer_role_level_default_not_mid :
    infer_role_level "x" "" min_experience_years_default = RoleLevel.intern ∧
    infer_role_level "x" "" min_experience_years_default ≠ RoleLevel.mid ∧
    (levelOrder.all fun l => (levelKeywords l).all
      fun kw => !(occursIn kw (pyLower ("x" ++ " " ++ "")))) = true := by
  decide

/-- C3 amended: with title and description containing none of the level
keywords, the classifier returns `Mid` only when `min_experience_years`
is an explicit `None`; when the field is omitted, the schema default `0`
applies and the classifier returns `Intern` instead. -/
theorem infer_role_level_no_signal (title description : String)
    (h : ∀ l ∈ levelOrder, ∀ kw ∈ levelKeywords l,
      occursIn kw (pyLower (title ++ " " ++ description)) = false) :
    infer_role_level title description none = RoleLevel.mid ∧
    infer_role_level "x" "" min_experience_years_default = RoleLevel.intern := by
  refine ⟨?_, by decide⟩
  have hzero : ∀ l ∈ levelOrder,
      levelScore (pyLower (title ++ " " ++ description)) none l = 0 := by
    intro l hl
    simp only [levelScore]
    have hc : (levelKeywords l).countP
        (fun kw => occursIn kw (pyLower (title ++ " " ++ description))) = 0 :=
      List.countP_eq_zero.mpr (fun kw hkw => by simp [h l hl kw hkw])
    simp [hc]
  simp only [infer_role_level]
  rw [if_pos]
  exact List.all_eq_true.mpr (fun l hl => by simp [hzero l hl])

/-- C3 amended, witness: the title `"x"` with an empty description has no
level keyword, and with an explicit `None` experience value the
classifier indeed returns `Mid`. -/
theorem infer_role_level_no_signal_witness :
    infer_role_level "x" "" none = RoleLevel.mid ∧
    infer_role_level "x" "" min_experience_years_default = RoleLevel.intern :=
  infer_role_level_no_signal "x" "" (by decide)

/-! ## Claim C6 -/

theorem toNat_ofNat_lt (n : ℕ) (h : n < 55296) : (Char.ofNat n).toNat = n := by
  have hv : n.isValidChar := Or.inl h
  simp [Char.ofNat, hv, Char.ofNatAux, Char.toNat, UInt32.toNat, UInt32.ofNatCore]

/-- Lowering a character never changes whether it is whitespace: ASCII
letters are not whitespace and whitespace is below the uppercase range. -/
theorem isPySpace_toLower (c : Char) :
    isPySpace (Char.toLower c) = isPySpace c := by
  by_cases h : c.toNat ≥ 65 ∧ c.toNat ≤ 90
  · have hval : (Char.ofNat (c.toNat + 32)).toNat = c.toNat + 32 :=
      toNat_ofNat_lt _ (by omega)
    have hL : isPySpace (Char.ofNat (c.toNat + 32)) = false := by
      simp only [isPySpace, hval]
      simp only [Bool.or_eq_false_iff, decide_eq_false_iff_not]
      omega
    have hR : isPySpace c = false := by
      simp only [isPySpace]
      simp only [Bool.or_eq_false_iff, decide_eq_false_iff_not]
      omega
    simp [Char.toLower, h, hL, hR]
  · simp [Char.toLower, h]

theorem dropWhile_twice (p : Char → Bool) (l : List Char) :
    (l.dropWhile p).dropWhile p = l.dropWhile p := by
  induction l with
  | nil => rfl
  | cons c t ih => by_cases h : p c <;> simp [List.dropWhile_cons, h, ih]

/-- A list whose head does not satisfy `p` is `dropWhile p`-stable, and
stability transfers to prefixes. -/
theorem dropWhile_eq_self_of_pre {p : Char → Bool} {x y : List Char}
    (hxy : x <+: y) (hy : y.dropWhile p = y) : x.dropWhile p = x := by
  cases x with
  | nil => rfl
  | cons a as =>
    obtain ⟨s, hs⟩ := hxy
    by_cases h : p a
    · exfalso
      rw [← hs, List.cons_append, List.dropWhile_cons, if_pos h] at hy
      have hlen := congrArg List.length hy
      have hle := (List.dropWhile_sublist (l := as ++ s) p).length_le
      rw [List.length_cons] at hlen
      omega
    · simp [List.dropWhile_cons, h]

theorem trimChars_pre (l : List Char) : trimChars l <+: l.dropWhile isPySpace := by
  have h := List.reverse_prefix.mpr
    (List.dropWhile_suffix (l := (l.dropWhile isPySpace).reverse) isPySpace)
  simpa [trimChars] using h

theorem trimChars_idem (l : List Char) :
    trimChars (trimChars l) = trimChars l := by
  have hclean : (l.dropWhile isPySpace).dropWhile isPySpace =
      l.dropWhile isPySpace := dropWhile_twice _ _
  have h1 : (trimChars l).dropWhile isPySpace = trimChars l :=
    dropWhile_eq_self_of_pre (trimChars_pre l) hclean
  have h2 : (trimChars l).reverse =
      (l.dropWhile isPySpace).reverse.dropWhile isPySpace := by
    simp [trimChars]
  show (((trimChars l).dropWhile isPySpace).reverse.dropWhile isPySpace).reverse
      = trimChars l
  rw [h1, h2, dropWhile_twice, ← h2, List.reverse_reverse]

theorem map_toLower_dropWhile (l : List Char) :
    (l.map Char.toLower).dropWhile isPySpace =
      (l.dropWhile isPySpace).map Char.toLower := by
  rw [List.dropWhile_map]
  have hp : (isPySpace ∘ Char.toLower) = isPySpace := funext isPySpace_toLower
  rw [hp]

theorem trimChars_map_toLower (l : List Char) :
    trimChars (l.map Char.toLower) = (trimChars l).map Char.toLower := by
  show (((l.map Char.toLower).dropWhile isPySpace).reverse.dropWhile
      isPySpace).reverse = _
  rw [map_toLower_dropWhile, ← List.map_reverse, map_toLower_dropWhile,
    ← List.map_reverse]
  rfl

/-- `lower` and `strip` commute (lowering neither creates nor destroys
whitespace). -/
theorem pyLower_pyStrip (s : String) :
    pyLower (pyStrip s) = pyStrip (pyLower s) := by
  show (⟨(trimChars s.data).map Char.toLower⟩ : String) =
    ⟨trimChars (s.data.map Char.toLower)⟩
  exact congrArg String.mk (trimChars_map_toLower s.data).symm

theorem pyStrip_idem (s : String) : pyStrip (pyStrip s) = pyStrip s := by
  show (⟨trimChars (trimChars s.data)⟩ : String) = ⟨trimChars s.data⟩
  exact congrArg String.mk (trimChars_idem s.data)

/-- Every value of the synonym table is a fixed point of `normalize`:
either its lowered form is again a key mapping to the same value (for
example `"JavaScript"`), or it is unknown to the table and passes
through unchanged (for example `"Google Cloud Platform"`). -/
theorem syn_values_fixed : ∀ p ∈ SKILL_SYNONYMS, normalize p.2 = p.2 := by
  decide

theorem lookupSyn_mem {k v : String} (h : lookupSyn k = some v) :
    ∃ p ∈ synonyms, p.2 = v := by
  unfold lookupSyn at h
  cases hf : List.find? (fun p => p.1 == k) synonyms with
  | none => rw [hf] at h; simp at h
  | some p =>
    rw [hf] at h
    simp only [Option.map_some', Option.some.injEq] at h
    exact ⟨p, List.mem_of_find?_eq_some hf, h⟩

/-- C6: `normalize` is idempotent on every string: a synonym-table hit
returns a table value, and every table value is itself a fixed point; a
miss returns the stripped input, whose lookup key is unchanged (lower
and strip commute, strip is idempotent), so it misses again and is
returned stripped, which is a no-op. -/
theorem normalize_idempotent (s : String) :
    normalize (normalize s) = normalize s := by
  cases h : lookupSyn (pyStrip (pyLower s)) with
  | some v =>
    have hv : normalize s = v := by simp [normalize, h]
    rw [hv]
    obtain ⟨p, hp, hpv⟩ := lookupSyn_mem h
    obtain ⟨q, hq, hq2⟩ := List.mem_map.mp hp
    have hfix : normalize q.2 = q.2 := syn_values_fixed q hq
    have hq22 : q.2 = p.2 := by rw [← hq2]
    rw [← hpv, ← hq22]
    exact hfix
  | none =>
    have hs : normalize s = pyStrip s := by simp [normalize, h]
    rw [hs]
    have hkey : pyStrip (pyLower (pyStrip s)) = pyStrip (pyLower s) := by
      rw [pyLower_pyStrip, pyStrip_idem]
    simp [normalize, hkey, h, pyStrip_idem]

/-! ## Claim C5 -/

theorem pyMax_mono {a b : ℚ} (c : ℚ) (h : a ≤ b) : pyMax c a ≤ pyMax c b := by
  simp only [pyMax]
  split_ifs <;> linarith

theorem pyMin_mono {a b : ℚ} (c : ℚ) (h : a ≤ b) : pyMin c a ≤ pyMin c b := by
  simp only [pyMin]
  split_ifs <;> linarith

theorem countsScore_bounds (m M o O : ℕ) :
    0 ≤ countsScore m M o O ∧ countsScore m M o O ≤ 100 := by
  simp only [countsScore, pyMin, pyMax]
  split_ifs <;> constructor <;> linarith

/-- C5: `calculate_skills_score` always lands in `[0, 100]` (both the
no-skills default `50` and the clamped arithmetic branch), and the
arithmetic core is monotone non-decreasing in the mandatory-matched
count when the mandatory total, the optional-matched count and the
optional total are held fixed. -/
theorem calculate_skills_score_bounds_and_mono :
    (∀ matched_skills missing_skills mandatory_skills optional_skills :
        List String,
      0 ≤ calculate_skills_score matched_skills missing_skills
            mandatory_skills optional_skills ∧
      calculate_skills_score matched_skills missing_skills
            mandatory_skills optional_skills ≤ 100) ∧
    (∀ m m' M o O : ℕ, m ≤ m' → countsScore m M o O ≤ countsScore m' M o O) := by
  constructor
  · intro matched missing mandatory optional
    rw [calculate_skills_score_eq_countsScore]
    split_ifs
    · norm_num
    · exact countsScore_bounds _ _ _ _
  · intro m m' M o O h
    have hc : (m : ℚ) ≤ (m' : ℚ) := by exact_mod_cast h
    simp only [countsScore]
    apply pyMin_mono
    apply pyMax_mono
    rcases Nat.eq_zero_or_pos M with hM | hM
    · subst hM
      norm_num
      linarith
    · have hMq : (0 : ℚ) < (M : ℚ) := by exact_mod_cast hM
      simp only [if_pos hM]
      have hdiv : (m : ℚ) / M ≤ (m' : ℚ) / M := by gcongr
      linarith

/-- C5 witness: both halves instantiated — the score of a concrete call
is in `[0, 100]`, and the core is monotone from `m = 0` to `m' = 1` with
one mandatory skill. -/
theorem calculate_skills_score_bounds_and_mono_witness :
    (0 ≤ calculate_skills_score ["Python"] [] ["Python", "FastAPI"] [] ∧
      calculate_skills_score ["Python"] [] ["Python", "FastAPI"] [] ≤ 100) ∧
    countsScore 0 1 0 0 ≤ countsScore 1 1 0 0 :=
  ⟨calculate_skills_score_bounds_and_mono.1 ["Python"] [] ["Python", "FastAPI"] [],
   calculate_skills_score_bounds_and_mono.2 0 1 1 0 0 (by decide)⟩

/-! ## Claim C8 -/

theorem overlapTake_isPre (ov : ℕ) : ∀ (sz : ℕ) (l : List String),
    overlapTake ov sz l <+: l := by
  intro sz l
  induction l generalizing sz with
  | nil => simp [overlapTake]
  | cons s rest ih =>
    simp only [overlapTake]
    split_ifs
    · exact List.cons_prefix_cons.mpr ⟨rfl, ih _⟩
    · exact List.nil_prefix

theorem overlapSeed_isSuf (ov : ℕ) (chunk : List String) :
    overlapSeed ov chunk <:+ chunk := by
  have h := overlapTake_isPre ov 0 chunk.reverse
  have h2 := List.reverse_suffix.mpr h
  simpa [overlapSeed] using h2

theorem chunkLoop_chain (chunk_size ov : ℕ) (rest : List String) :
    ∀ (current : List String) (size : ℕ) (acc : List (List String)),
      List.Chain' (fun c₁ c₂ => overlapSeed ov c₁ <+: c₂) acc →
      (∀ last ∈ acc.getLast?, overlapSeed ov last <+: current) →
      List.Chain' (fun c₁ c₂ => overlapSeed ov c₁ <+: c₂)
        (chunkLoop chunk_size ov rest current size acc) := by
  induction rest with
  | nil =>
    intro current size acc hchain hlast
    simp only [chunkLoop]
    split_ifs
    · exact hchain
    · rw [ List.chain'_append]
      refine ⟨hchain, by simp, ?_⟩
      intro x hx y hy
      simp only [List.head?_cons, Option.mem_def, Option.some.injEq] at hy
      subst hy
      exact hlast x hx
  | cons s rest ih =>
    intro current size acc hchain hlast
    simp only [chunkLoop]
    split_ifs with hclose
    · apply ih
      · rw [ List.chain'_append]
        refine ⟨hchain, by simp, ?_⟩
        intro x hx y hy
        simp only [List.head?_cons, Option.mem_def, Option.some.injEq] at hy
        subst hy
        exact hlast x hx
      · intro last hl
        rw [List.getLast?_concat] at hl
        simp only [Option.mem_def, Option.some.injEq] at hl
        subst hl
        exact List.prefix_append _ _
    · apply ih
      · exact hchain
      · intro last hl
        exact (hlast last hl).trans (List.prefix_append current [s])

/-- C8: whenever `chunk_text` closes a chunk and seeds the next one with
overlap, the leading sentences of the new chunk are exactly
`overlapSeed` of the just-closed chunk (first conjunct: adjacent output
chunks are related by that seed being a prefix of the successor), and
that seed is always a contiguous suffix of the previous chunk's sentence
sequence — the trailing sentences whose cumulative estimated token count
stays within the overlap budget (second conjunct). -/
theorem chunk_text_overlap_is_suffix :
    ∀ (chunk_size overlap : ℕ) (sentences : List String),
      List.Chain' (fun c₁ c₂ => overlapSeed overlap c₁ <+: c₂)
        (chunk_sentences chunk_size overlap sentences) ∧
      ∀ chunk : List String, overlapSeed overlap chunk <:+ chunk := by
  intro chunk_size overlap sentences
  constructor
  · exact chunkLoop_chain chunk_size overlap sentences [] 0 []
      (List.chain'_nil) (by simp)
  · exact overlapSeed_isSuf overlap

/-! ## Claim C9 -/

/-- C9: `evaluate_with_llm` never raises past its boundary (it is a total
function of the two collaborator outcomes), and on transport failure of
the completion call, or on JSON parse failure of the (fence-stripped)
response, it returns the conservative fallback object: empty
`matched_skills`, `missing_skills` equal to the full mandatory list, all
three sub-scores `0`, and a `weaknesses` list carrying the failure
note. -/
theorem evaluate_with_llm_fallback :
    (∀ (mandatory_skills optional_skills : List String) (e : String)
        (parseJSON : String → Except String LLMEvaluation),
      evaluate_with_llm mandatory_skills optional_skills
          (.transportError e) parseJSON =
        { matched_skills := []
          missing_skills := mandatory_skills
          skills_score := 0
          experience_summary := "Evaluation error"
          experience_score := 0
          education_details := "Unknown"
          education_score := 0
          strengths := []
          weaknesses := ["Evaluation failed"]
          confidence_notes := "LLM evaluation failed: " ++ e }) ∧
    (∀ (mandatory_skills optional_skills : List String) (text e : String)
        (parseJSON : String → Except String LLMEvaluation),
      parseJSON (stripCodeFence text) = .error e →
      evaluate_with_llm mandatory_skills optional_skills (.ok text) parseJSON =
        { matched_skills := []
          missing_skills := mandatory_skills
          skills_score := 0
          experience_summary := "Unable to parse resume content"
          experience_score := 0
          education_details := "Unknown"
          education_score := 0
          strengths := []
          weaknesses := ["Resume parsing failed"]
          confidence_notes := "Evaluation failed due to parsing error: " ++ e }) := by
  refine ⟨fun _ _ _ _ => rfl, ?_⟩
  intro mandatory optional text e parseJSON h
  simp [evaluate_with_llm, h]

/-- C9 witness: the parse-failure half applied to a concrete response and
an always-failing parse function. -/
theorem evaluate_with_llm_fallback_witness :
    evaluate_with_llm ["Python"] [] (.ok "oops")
        (fun _ => .error "bad") =
      { matched_skills := []
        missing_skills := ["Python"]
        skills_score := 0
        experience_summary := "Unable to parse resume content"
        experience_score := 0
        education_details := "Unknown"
        education_score := 0
        strengths := []
        weaknesses := ["Resume parsing failed"]
        confidence_notes := "Evaluation failed due to parsing error: " ++ "bad" } :=
  evaluate_with_llm_fallback.2 ["Python"] [] "oops" "bad"
    (fun _ => .error "bad") rfl

/-! ## Claim C7 -/

/-- Descending order on the final score, as produced by the sort. -/
def sortedDesc (l : List EvalItem) : Prop :=
  List.Pairwise (fun a b => b.final_score ≤ a.final_score) l

theorem insertDesc_perm (x : EvalItem) (l : List EvalItem) :
    (insertDesc x l).Perm (x :: l) := by
  induction l with
  | nil => simp [insertDesc]
  | cons y ys ih =>
    simp only [insertDesc]
    split_ifs
    · exact List.Perm.refl _
    · exact (ih.cons y).trans (List.Perm.swap x y ys)

theorem insertDesc_sorted (x : EvalItem) {l : List EvalItem}
    (h : sortedDesc l) : sortedDesc (insertDesc x l) := by
  induction l with
  | nil => simp [insertDesc, sortedDesc]
  | cons y ys ih =>
    rcases List.pairwise_cons.mp h with ⟨hy, hys⟩
    simp only [insertDesc]
    split_ifs with hxy
    · refine List.pairwise_cons.mpr ⟨?_, h⟩
      intro b hb
      rcases List.mem_cons.mp hb with rfl | hb
      · exact le_of_lt hxy
      · exact le_trans (hy b hb) (le_of_lt hxy)
    · refine List.pairwise_cons.mpr ⟨?_, ih hys⟩
      intro b hb
      have hb' := (insertDesc_perm x ys).mem_iff.mp hb
      rcases List.mem_cons.mp hb' with rfl | hb'
      · exact le_of_not_lt hxy
      · exact hy b hb'

theorem insertDesc_filter (x : EvalItem) {l : List EvalItem}
    (h : sortedDesc l) (q : ℚ) :
    (insertDesc x l).filter (fun e => decide (e.final_score = q)) =
      l.filter (fun e => decide (e.final_score = q)) ++
        (if x.final_score = q then [x] else []) := by
  induction l with
  | nil =>
    by_cases hx : x.final_score = q <;> simp [insertDesc, List.filter_cons, hx]
  | cons y ys ih =>
    rcases List.pairwise_cons.mp h with ⟨hy, hys⟩
    by_cases hxy : x.final_score > y.final_score
    · by_cases hx : x.final_score = q
      · have hnil : (y :: ys).filter (fun e => decide (e.final_score = q)) = [] := by
          apply List.filter_eq_nil_iff.mpr
          intro e he
          have hle : e.final_score ≤ y.final_score := by
            rcases List.mem_cons.mp he with rfl | he'
            · exact le_refl _
            · exact hy e he'
          have hlt : e.final_score < q := lt_of_le_of_lt hle (hx ▸ hxy)
          simp [ne_of_lt hlt]
        simp only [insertDesc, if_pos hxy]
        rw [List.filter_cons_of_pos (by simp [hx]), hnil]
        simp [hx]
      · simp only [insertDesc, if_pos hxy]
        rw [List.filter_cons_of_neg (by simp [hx])]
        simp [hx]
    · simp only [insertDesc, if_neg hxy]
      by_cases hyq : y.final_score = q <;>
        simp [List.filter_cons, hyq, ih hys]

theorem foldl_insertDesc_sorted (xs : List EvalItem) :
    ∀ acc : List EvalItem, sortedDesc acc →
      sortedDesc (xs.foldl (fun a x => insertDesc x a) acc) := by
  induction xs with
  | nil => intro acc h; exact h
  | cons x xs ih =>
    intro acc h
    exact ih (insertDesc x acc) (insertDesc_sorted x h)

theorem foldl_insertDesc_perm (xs : List EvalItem) :
    ∀ acc : List EvalItem,
      (xs.foldl (fun a x => insertDesc x a) acc).Perm (acc ++ xs) := by
  induction xs with
  | nil => intro acc; simp
  | cons x xs ih =>
    intro acc
    refine (ih (insertDesc x acc)).trans ?_
    have h1 : (insertDesc x acc ++ xs).Perm ((x :: acc) ++ xs) :=
      (insertDesc_perm x acc).append_right xs
    refine h1.trans ?_
    simpa using List.perm_middle.symm

theorem foldl_insertDesc_filter (xs : List EvalItem) (q : ℚ) :
    ∀ acc : List EvalItem, sortedDesc acc →
      (xs.foldl (fun a x => insertDesc x a) acc).filter
          (fun e => decide (e.final_score = q)) =
        acc.filter (fun e => decide (e.final_score = q)) ++
          xs.filter (fun e => decide (e.final_score = q)) := by
  induction xs with
  | nil => intro acc _; simp
  | cons x xs ih =>
    intro acc h
    rw [List.foldl_cons, ih (insertDesc x acc) (insertDesc_sorted x h),
      insertDesc_filter x h q, List.append_assoc]
    by_cases hx : x.final_score = q <;> simp [List.filter_cons, hx]

/-- C7: the result-ordering step of `evaluate_candidates` sorts by final
score descending, keeping candidates with equal final scores in their
upstream relative order (stable sort): the output is a permutation of
the input, pairwise descending in `final_score`, and for every score
value the sub-sequence of candidates carrying it is unchanged; in
particular, input scores `[40, 90, 90]` yield both 90-scorers before the
40-scorer in their original relative order. -/
theorem evaluate_candidates_ordering :
    (∀ l : List EvalItem,
      (sortEvalsDesc l).Perm l ∧
      List.Pairwise (fun a b => b.final_score ≤ a.final_score)
        (sortEvalsDesc l) ∧
      ∀ q : ℚ, (sortEvalsDesc l).filter (fun e => decide (e.final_score = q)) =
        l.filter (fun e => decide (e.final_score = q))) ∧
    sortEvalsDesc [⟨"A", 40⟩, ⟨"B", 90⟩, ⟨"C", 90⟩] =
      [⟨"B", 90⟩, ⟨"C", 90⟩, ⟨"A", 40⟩] := by
  constructor
  · intro l
    refine ⟨?_, ?_, ?_⟩
    · simpa using foldl_insertDesc_perm l []
    · exact foldl_insertDesc_sorted l [] (List.Pairwise.nil)
    · intro q
      simpa using foldl_insertDesc_filter l q [] (List.Pairwise.nil)
  · decide

/-! ## Claim C10 -/

/-- C10: `calculate_skills_score` never reads its `missing_skills`
argument — the missing-mandatory count is recomputed internally as the
mandatory total minus the mandatory-matched count — so any two calls
that differ only in `missing_skills` return the same score. -/
theorem calculate_skills_score_ignores_missing_skills
    (matched_skills missing₁ missing₂ mandatory_skills optional_skills :
      List String) :
    calculate_skills_score matched_skills missing₁ mandatory_skills
        optional_skills =
      calculate_skills_score matched_skills missing₂ mandatory_skills
        optional_skills := rfl

end ATS
